import Mathlib

/-!
Verification of the block/markup converter in `flow_watcher/notion.py`
(class `NotionAPI`): the tree-to-markup renderer
(`read_page_markdown` / `_fetch_page_content_recursive` /
`_convert_blocks_to_markdown` and the per-kind handlers) and the
markup-to-block parser (`_convert_markdown_to_blocks`).

Modelling conventions:
* Python strings are sequences of code points, so string primitives
  (`startswith`, slicing, `strip`, `split`) are embedded through the
  character list `String.data`.
* Python dicts with a fixed key schema become structures / inductive
  payloads; a key that may be absent or falsy becomes an `Option` (or a
  `Bool` that defaults to `false`, matching `dict.get`'s falsy default).
* Network calls are modelled by a `Store` mapping a block identifier to
  the outcome of a `GET .../blocks/id/children` request: a block list, an
  HTTP status error (`requests` raises `HTTPError` from
  `raise_for_status`), or a transport failure raised by `requests.get`
  itself (which no `except requests.exceptions.HTTPError` clause
  catches).  Looking up an unknown identifier yields the HTTP error
  outcome (a 404 makes `raise_for_status` raise).
* `print` diagnostics are reified as a `Diag` list returned alongside
  the value; an uncaught Python exception is `Except.error`.
* The recursion of the renderer is bounded by an explicit `fuel`
  parameter modelling the call stack; `fuel` is consumed one unit per
  call, and the adequacy theorems below show a computable bound on the
  fuel under which the render never runs out, which is the termination
  content of the original recursion.
-/

namespace FlowWatcher

/-! ## Python string primitives over code-point lists -/

/-- Python `line.startswith(p)`: `p`'s code points are a prefix of `s`'s. -/
def strStartsWith (s p : String) : Bool :=
  p.data.isPrefixOf s.data

/-- Python slicing `s[n:]`: drop the first `n` code points. -/
def strDrop (s : String) (n : Nat) : String :=
  String.mk (s.data.drop n)

/-- Python `s.strip()`: remove leading and trailing whitespace. -/
def strTrim (s : String) : String :=
  String.mk (((s.data.dropWhile Char.isWhitespace).reverse.dropWhile Char.isWhitespace).reverse)

/-- Python `s.split("\n")` on the code-point list: every newline separates
two (possibly empty) fields, so the result has one more field than there
are newlines. -/
def splitLinesAux : List Char → List String
  | [] => [""]
  | c :: rest =>
    match splitLinesAux rest with
    | h :: t => if c = '\n' then "" :: h :: t else String.mk (c :: h.data) :: t
    | [] => [String.mk [c]]

/-- Python `markdown.split('\n')`. -/
def splitLines (s : String) : List String :=
  splitLinesAux s.data

/-! ## Rich text data model (`rich_text` entries) -/

/-- The `annotations` dict of a rich-text entry: five independent boolean
flags; `annotations.get(k)` on a missing key is falsy, so a plain `Bool`
record with explicit values is an exact model. -/
structure Annotations where
  bold : Bool
  italic : Bool
  underline : Bool
  strikethrough : Bool
  code : Bool
deriving DecidableEq

/-- One entry of a `rich_text` list, dispatched on its `type` field:
`text` entries carry `text.content` and `annotations`; `mention` entries
are explicitly ignored (`pass`); any other type falls off the end of the
if-chain and contributes nothing. -/
inductive RichText where
  | text (content : String) (annots : Annotations)
  | mention
  | unknownType
deriving DecidableEq

/-- `NotionAPI._apply_markdown_annotations`: rebind `content` through a
chain of `if annotations.get(flag):` wrappings, in source order
bold, italic, underline, strikethrough, code. -/
def apply_markdown_annotations (content : String) (annots : Annotations) : String :=
  let c1 := if annots.bold then "**" ++ content ++ "**" else content
  let c2 := if annots.italic then "*" ++ c1 ++ "*" else c1
  let c3 := if annots.underline then "<u>" ++ c2 ++ "</u>" else c2
  let c4 := if annots.strikethrough then "~~" ++ c3 ++ "~~" else c3
  if annots.code then "`" ++ c4 ++ "`" else c4

/-- `NotionAPI._compose_text`: left-to-right concatenation of the
annotated contents of the `text`-typed runs. -/
def compose_text : List RichText → String
  | [] => ""
  | RichText.text content annots :: rest =>
    apply_markdown_annotations content annots ++ compose_text rest
  | RichText.mention :: rest => compose_text rest
  | RichText.unknownType :: rest => compose_text rest

/-! ## Per-kind fragment renderers (pure handlers) -/

/-- `'#' * level`. -/
def hashes : Nat → String
  | 0 => ""
  | n + 1 => "#" ++ hashes n

/-- `NotionAPI._handle_paragraph`. -/
def handle_paragraph (texts : List RichText) : String :=
  compose_text texts

/-- `NotionAPI._handle_heading`. -/
def handle_heading (texts : List RichText) (level : Nat) : String :=
  hashes level ++ " " ++ compose_text texts

/-- `NotionAPI._handle_bulleted_list_item`. -/
def handle_bulleted_list_item (texts : List RichText) : String :=
  "- " ++ compose_text texts

/-- `NotionAPI._handle_numbered_list_item`: the ordinal is the literal
string `"1. "` for every item. -/
def handle_numbered_list_item (texts : List RichText) : String :=
  "1. " ++ compose_text texts

/-- `NotionAPI._handle_to_do`. -/
def handle_to_do (texts : List RichText) (checked : Bool) : String :=
  "- " ++ (if checked then "[x]" else "[ ]") ++ " " ++ compose_text texts

/-- `NotionAPI._handle_code`. -/
def handle_code (language : String) (texts : List RichText) : String :=
  "```" ++ language ++ "\n" ++ compose_text texts ++ "\n```"

/-- `NotionAPI._handle_quote`. -/
def handle_quote (texts : List RichText) : String :=
  "> " ++ compose_text texts

/-- `NotionAPI._handle_divider`. -/
def handle_divider : String :=
  "---"

/-! ## Markup → block-descriptor parser -/

/-- The write-intent record appended by one loop iteration of
`NotionAPI._convert_markdown_to_blocks`, keyed by its `type` field. -/
inductive BlockDescriptor where
  | heading_3 (content : String)
  | heading_2 (content : String)
  | heading_1 (content : String)
  | to_do (content : String) (checked : Bool)
  | bulleted_list_item (content : String)
  | numbered_list_item (content : String)
  | code (language : String)
  | divider
  | quote (content : String)
  | toggle (content : String)
  | paragraph (content : String)
deriving DecidableEq

/-- The body of the `for line in lines:` loop of
`NotionAPI._convert_markdown_to_blocks`: the if/elif prefix chain in
source order, each branch appending exactly one descriptor, ending in an
unconditional `else` paragraph. -/
def classify_line (line : String) : BlockDescriptor :=
  if strStartsWith line "### " then BlockDescriptor.heading_3 (strDrop line 4)
  else if strStartsWith line "## " then BlockDescriptor.heading_2 (strDrop line 3)
  else if strStartsWith line "# " then BlockDescriptor.heading_1 (strDrop line 2)
  else if strStartsWith line "- [x] " then BlockDescriptor.to_do (strDrop line 6) true
  else if strStartsWith line "- [ ] " then BlockDescriptor.to_do (strDrop line 6) false
  else if strStartsWith line "- " then BlockDescriptor.bulleted_list_item (strDrop line 2)
  else if strStartsWith line "1. " then BlockDescriptor.numbered_list_item (strDrop line 3)
  else if strStartsWith line "```" then BlockDescriptor.code (strTrim (strDrop line 3))
  else if strStartsWith line "---" || strStartsWith line "***" then BlockDescriptor.divider
  else if strStartsWith line "> " then BlockDescriptor.quote (strDrop line 2)
  else if strStartsWith line "###" then BlockDescriptor.toggle line
  else BlockDescriptor.paragraph line

/-- The loop of `_convert_markdown_to_blocks`: `blocks` starts empty and
each line appends its descriptor. -/
def convert_markdown_lines : List String → List BlockDescriptor → List BlockDescriptor
  | [], blocks => blocks
  | line :: rest, blocks => convert_markdown_lines rest (blocks ++ [classify_line line])

/-- `NotionAPI._convert_markdown_to_blocks`. -/
def convert_markdown_to_blocks (markdown : String) : List BlockDescriptor :=
  convert_markdown_lines (splitLines markdown) []

/-! ## Block data model (raw records returned by the children endpoint) -/

mutual
/-- The outcome of the children fetch a toggle block performs for its own
identifier (`GET .../blocks/toggle_id/children` inside
`_handle_toggle`).  Per the document model a toggle owns its (lazily
fetched) subtree, so the outcome is carried on the block: a fetched
child-block list, an HTTP status error raised by `raise_for_status`
(caught locally), or a transport failure raised by `requests.get` itself
(caught by no handler). -/
inductive ToggleFetch where
  | fetched (results : List Block)
  | httpFailure
  | transportFailure

/-- One raw block record, dispatched on its `type` field by
`_convert_blocks_to_markdown`.  `noType` is a record whose `type` key is
missing or falsy (`if not block_type: continue`); `unsupported` is any
other unrecognised tag (the `else` arm).  `child_page` carries the
optional `page_id` and `title` of its `child_page` payload; a `toggle`
with no usable (truthy) `id` key carries `none` and performs no fetch. -/
inductive Block where
  | noType
  | paragraph (texts : List RichText)
  | heading_1 (texts : List RichText)
  | heading_2 (texts : List RichText)
  | heading_3 (texts : List RichText)
  | bulleted_list_item (texts : List RichText)
  | numbered_list_item (texts : List RichText)
  | to_do (texts : List RichText) (checked : Bool)
  | toggle (texts : List RichText) (fetch : Option ToggleFetch)
  | code (language : String) (texts : List RichText)
  | quote (texts : List RichText)
  | divider
  | child_page (pid : Option String) (title : Option String)
  | unsupported (kind : String)
end

/-- Outcome of `GET .../blocks/page_id/children` for a page identifier:
the `results` block list, an HTTP status error (raised by
`raise_for_status`, caught in `_fetch_page_content_recursive`), or a
transport failure raised by `requests.get` itself (uncaught). -/
inductive FetchResult where
  | ok (results : List Block)
  | httpFailure
  | transportFailure

/-- The remote document service: which children-fetch outcome each page
identifier produces.  An identifier with no entry yields an HTTP error
(the service answers 404 and `raise_for_status` raises). -/
abbrev Store := List (String × FetchResult)

def storeLookup : Store → String → FetchResult
  | [], _ => FetchResult.httpFailure
  | (k, r) :: rest, pid => if k = pid then r else storeLookup rest pid

/-- One `print` diagnostic of the renderer, in source order of the five
print sites. -/
inductive Diag where
  | alreadyProcessed (pid : String)
  | pageHttpFailure (pid : String)
  | toggleHttpFailure
  | childPageIdMissing
  | unhandledBlockType (kind : String)
deriving DecidableEq

/-- A Python exception that no handler catches: the transport failure
raised by `requests.get` (only `requests.exceptions.HTTPError` is ever
caught). -/
inductive Uncaught where
  | transportFailure
deriving DecidableEq

/-- Result state of a renderer call: produced markup, the (mutated)
`processed_pages` set — modelled as a list, newest first — and the
emitted diagnostics. -/
abbrev RState := String × List String × List Diag

/-- Result state of the fragment-collecting loop of
`_convert_blocks_to_markdown`: the `markdown_lines` fragments, the
mutated visited list, and the diagnostics. -/
abbrev FragState := List String × List String × List Diag

/-- `"\n\n".join(markdown_lines)`. -/
def joinFragments : List String → String
  | [] => ""
  | [f] => f
  | f :: g :: rest => f ++ "\n\n" ++ joinFragments (g :: rest)

/-! ## The recursive renderer

Each function takes a `fuel` bound on the remaining call depth and
consumes one unit per call; `none` means the fuel ran out (the adequacy
theorems below exhibit a sufficient fuel for every input, so `none` is
an artefact of the embedding, not a behaviour of the code). -/

mutual
/-- `NotionAPI._fetch_page_content_recursive`: cycle guard on
`processed_pages`, then the page-children fetch. The
`except requests.exceptions.HTTPError` clause around
`raise_for_status` catches the HTTP status error and returns `""`;
a transport failure from `requests.get` propagates. -/
def fetch_page_content_recursive : Nat → Store → String → List String →
    Option (Except Uncaught RState)
  | 0, _, _, _ => none
  | fuel + 1, store, pageId, visited =>
    if pageId ∈ visited then
      some (Except.ok ("", visited, [Diag.alreadyProcessed pageId]))
    else
      match storeLookup store pageId with
      | FetchResult.transportFailure => some (Except.error Uncaught.transportFailure)
      | FetchResult.httpFailure =>
        some (Except.ok ("", pageId :: visited, [Diag.pageHttpFailure pageId]))
      | FetchResult.ok blocks =>
        match convert_blocks_to_markdown_frags fuel store blocks (pageId :: visited) with
        | none => none
        | some (Except.error e) => some (Except.error e)
        | some (Except.ok (frags, v, ds)) =>
          some (Except.ok (joinFragments frags, v, ds))

/-- The loop of `NotionAPI._convert_blocks_to_markdown`, accumulating the
`markdown_lines` list: each block's content is appended only when truthy
(non-empty); the final join is done by the caller. -/
def convert_blocks_to_markdown_frags : Nat → Store → List Block → List String →
    Option (Except Uncaught FragState)
  | 0, _, _, _ => none
  | _ + 1, _, [], visited => some (Except.ok ([], visited, []))
  | fuel + 1, store, b :: rest, visited =>
    match render_block fuel store b visited with
    | none => none
    | some (Except.error e) => some (Except.error e)
    | some (Except.ok (content, v1, ds1)) =>
      match convert_blocks_to_markdown_frags fuel store rest v1 with
      | none => none
      | some (Except.error e) => some (Except.error e)
      | some (Except.ok (frags, v2, ds2)) =>
        some (Except.ok ((if content = "" then frags else content :: frags), v2, ds1 ++ ds2))

/-- One iteration body of `_convert_blocks_to_markdown`: dispatch on the
block's `type`.  A falsy type and an unrecognised type both `continue`
(no fragment); only the unrecognised one prints a diagnostic. -/
def render_block : Nat → Store → Block → List String → Option (Except Uncaught RState)
  | 0, _, _, _ => none
  | _ + 1, _, Block.noType, visited => some (Except.ok ("", visited, []))
  | _ + 1, _, Block.paragraph texts, visited =>
    some (Except.ok (handle_paragraph texts, visited, []))
  | _ + 1, _, Block.heading_1 texts, visited =>
    some (Except.ok (handle_heading texts 1, visited, []))
  | _ + 1, _, Block.heading_2 texts, visited =>
    some (Except.ok (handle_heading texts 2, visited, []))
  | _ + 1, _, Block.heading_3 texts, visited =>
    some (Except.ok (handle_heading texts 3, visited, []))
  | _ + 1, _, Block.bulleted_list_item texts, visited =>
    some (Except.ok (handle_bulleted_list_item texts, visited, []))
  | _ + 1, _, Block.numbered_list_item texts, visited =>
    some (Except.ok (handle_numbered_list_item texts, visited, []))
  | _ + 1, _, Block.to_do texts checked, visited =>
    some (Except.ok (handle_to_do texts checked, visited, []))
  | fuel + 1, store, Block.toggle texts fetch, visited =>
    handle_toggle fuel store texts fetch visited
  | _ + 1, _, Block.code language texts, visited =>
    some (Except.ok (handle_code language texts, visited, []))
  | _ + 1, _, Block.quote texts, visited =>
    some (Except.ok (handle_quote texts, visited, []))
  | _ + 1, _, Block.divider, visited =>
    some (Except.ok (handle_divider, visited, []))
  | fuel + 1, store, Block.child_page pid title, visited =>
    match pid with
    | none => some (Except.ok ("", visited, [Diag.childPageIdMissing]))
    | some cid =>
      if cid = "" then some (Except.ok ("", visited, [Diag.childPageIdMissing]))
      else
        match fetch_page_content_recursive fuel store cid visited with
        | none => none
        | some (Except.error e) => some (Except.error e)
        | some (Except.ok (childMd, v1, ds)) =>
          some (Except.ok ("\n### " ++ (title.getD "Untitled Page") ++ "\n\n" ++ childMd ++ "\n",
            v1, ds))
  | _ + 1, _, Block.unsupported kind, visited =>
    some (Except.ok ("", visited, [Diag.unhandledBlockType kind]))

/-- `NotionAPI._handle_toggle`: compose the summary; with no truthy `id`
no fetch happens and the body is empty; an HTTP status error from the
children fetch is caught and also yields an empty body (plus a
diagnostic); a transport failure propagates; a fetched child list is
rendered recursively into the body. -/
def handle_toggle : Nat → Store → List RichText → Option ToggleFetch → List String →
    Option (Except Uncaught RState)
  | 0, _, _, _, _ => none
  | _ + 1, _, texts, none, visited =>
    some (Except.ok ("> <details><summary>" ++ compose_text texts ++ "</summary>\n\n</details>",
      visited, []))
  | _ + 1, _, _texts, some ToggleFetch.transportFailure, _ =>
    some (Except.error Uncaught.transportFailure)
  | _ + 1, _, texts, some ToggleFetch.httpFailure, visited =>
    some (Except.ok ("> <details><summary>" ++ compose_text texts ++ "</summary>\n\n</details>",
      visited, [Diag.toggleHttpFailure]))
  | fuel + 1, store, texts, some (ToggleFetch.fetched children), visited =>
    match convert_blocks_to_markdown_frags fuel store children visited with
    | none => none
    | some (Except.error e) => some (Except.error e)
    | some (Except.ok (frags, v1, ds)) =>
      some (Except.ok ("> <details><summary>" ++ compose_text texts ++ "</summary>\n\n" ++
        joinFragments frags ++ "\n</details>", v1, ds))
end

/-- `NotionAPI.read_page_markdown`: fresh empty `processed_pages`, then
the recursive fetch; the produced markup is returned together with the
emitted diagnostics (stdout prints). -/
def read_page_markdown (fuel : Nat) (store : Store) (pageId : String) :
    Option (Except Uncaught (String × List Diag)) :=
  match fetch_page_content_recursive fuel store pageId [] with
  | none => none
  | some (Except.error e) => some (Except.error e)
  | some (Except.ok (md, _, ds)) => some (Except.ok (md, ds))

/-! ## Call-depth cost of a block tree

Used to exhibit a sufficient fuel for the renderer: each function call
consumes one fuel unit, and the cost functions below over-approximate
the calls spent on a block (toggle children included) apart from the
page-level recursion, which is charged to the potential `pot` below. -/

mutual
def blockCost : Block → Nat
  | Block.toggle _ fetch => 2 + toggleFetchOptCost fetch
  | Block.child_page _ _ => 2
  | _ => 1

def blocksCost : List Block → Nat
  | [] => 1
  | b :: rest => 1 + blockCost b + blocksCost rest

def toggleFetchOptCost : Option ToggleFetch → Nat
  | none => 1
  | some tf => 1 + toggleFetchCost tf

def toggleFetchCost : ToggleFetch → Nat
  | ToggleFetch.fetched children => 1 + blocksCost children
  | ToggleFetch.httpFailure => 1
  | ToggleFetch.transportFailure => 1
end

/-- The distinct page identifiers the store can answer with a block
list. -/
def storeKeys (store : Store) : List String :=
  (store.map Prod.fst).dedup

def fetchResultCost : FetchResult → Nat
  | FetchResult.ok blocks => blocksCost blocks + 2
  | FetchResult.httpFailure => 2
  | FetchResult.transportFailure => 2

/-- Remaining page-level work: total cost of the store entries whose
identifier is not yet in the visited list.  Every page-level recursion
step moves one store key into the visited list, so this potential
strictly decreases. -/
def pot (store : Store) (visited : List String) : Nat :=
  Finset.sum ((storeKeys store).toFinset.filter (fun k => k ∉ visited))
    (fun k => fetchResultCost (storeLookup store k))

/-- Wrapping with a marker pair, as §4.1 of the specification describes
one annotation step: used to compare `apply_markdown_annotations` with
the specified composition order. -/
def condWrap (l r : String) (b : Bool) (s : String) : String :=
  if b then l ++ s ++ r else s

/-! ## Structural lemmas about the renderer

`walk_invariant`: one successful call only ever extends the visited list
at its head (Python mutates one shared set), and preserves the absence
of duplicates: a page identifier already in the visited set is never
added — i.e. its children are never fetched — again.

`adequacy`: with fuel at least the stated cost bound no call runs out of
fuel, for every store and block tree: the original recursion always
terminates. -/

theorem blockCost_pos (b : Block) : 1 ≤ blockCost b := by
  cases b <;> (simp only [blockCost]; omega)

theorem blocksCost_pos (bs : List Block) : 1 ≤ blocksCost bs := by
  cases bs <;> (simp only [blocksCost]; omega)

theorem toggleFetchOptCost_pos (f : Option ToggleFetch) : 1 ≤ toggleFetchOptCost f := by
  cases f <;> (simp only [toggleFetchOptCost]; omega)

theorem pot_mono (store : Store) {v v' : List String} (hsub : v ⊆ v') :
    pot store v' ≤ pot store v := by
  apply Finset.sum_le_sum_of_subset
  intro k hk
  simp only [Finset.mem_filter] at hk ⊢
  exact ⟨hk.1, fun hm => hk.2 (hsub hm)⟩

theorem pot_split (store : Store) (pid : String) (v : List String)
    (hk : pid ∈ storeKeys store) (hv : pid ∉ v) :
    pot store v = fetchResultCost (storeLookup store pid) + pot store (pid :: v) := by
  have hmem : pid ∈ (storeKeys store).toFinset.filter (fun k => k ∉ v) := by
    simp only [Finset.mem_filter, List.mem_toFinset]
    exact ⟨hk, hv⟩
  have herase : (storeKeys store).toFinset.filter (fun k => k ∉ pid :: v) =
      ((storeKeys store).toFinset.filter (fun k => k ∉ v)).erase pid := by
    ext k
    simp only [Finset.mem_filter, Finset.mem_erase, List.mem_cons, not_or]
    tauto
  rw [pot, pot, herase]
  exact (Finset.add_sum_erase _ _ hmem).symm

theorem lookup_mem_keys : ∀ {store : Store} {pid : String} {blocks : List Block},
    storeLookup store pid = FetchResult.ok blocks → pid ∈ storeKeys store := by
  intro store
  induction store with
  | nil => intro pid blocks h; simp [storeLookup] at h
  | cons e rest ih =>
    intro pid blocks h
    rcases e with ⟨k, r⟩
    rw [storeLookup] at h
    by_cases hke : k = pid
    · subst hke
      simp [storeKeys, List.mem_dedup]
    · simp only [hke, if_false] at h
      have hmem := ih h
      simp only [storeKeys, List.mem_dedup, List.map_cons, List.mem_cons] at hmem ⊢
      exact Or.inr hmem


theorem walk_invariant : ∀ (fuel : Nat),
    (∀ store pid v r, fetch_page_content_recursive fuel store pid v = some (Except.ok r) →
      v <:+ r.2.1 ∧ (v.Nodup → r.2.1.Nodup))
  ∧ (∀ store blocks v r, convert_blocks_to_markdown_frags fuel store blocks v = some (Except.ok r) →
      v <:+ r.2.1 ∧ (v.Nodup → r.2.1.Nodup))
  ∧ (∀ store b v r, render_block fuel store b v = some (Except.ok r) →
      v <:+ r.2.1 ∧ (v.Nodup → r.2.1.Nodup))
  ∧ (∀ store texts tf v r, handle_toggle fuel store texts tf v = some (Except.ok r) →
      v <:+ r.2.1 ∧ (v.Nodup → r.2.1.Nodup)) := by
  intro fuel
  induction fuel with
  | zero =>
    refine ⟨?_, ?_, ?_, ?_⟩
    · intro store pid v r h; simp [fetch_page_content_recursive] at h
    · intro store blocks v r h; simp [convert_blocks_to_markdown_frags] at h
    · intro store b v r h; simp [render_block] at h
    · intro store texts tf v r h; simp [handle_toggle] at h
  | succ n ih =>
    obtain ⟨ihF, ihC, ihR, ihT⟩ := ih
    refine ⟨?_, ?_, ?_, ?_⟩
    · intro store pid v r h
      simp only [fetch_page_content_recursive] at h
      split at h
      · cases h
        exact ⟨List.suffix_refl v, fun hnd => hnd⟩
      · case isFalse hmem =>
        split at h
        · cases h
        · cases h
          exact ⟨List.suffix_cons pid v, fun hnd => List.nodup_cons.mpr ⟨hmem, hnd⟩⟩
        · case _ blocks hlk =>
          split at h
          · cases h
          · cases h
          · case _ frags v2 ds hc =>
            cases h
            have hrec := ihC store blocks (pid :: v) (frags, v2, ds) hc
            refine ⟨(List.suffix_cons pid v).trans hrec.1, fun hnd => ?_⟩
            exact hrec.2 (List.nodup_cons.mpr ⟨hmem, hnd⟩)
    · intro store blocks v r h
      match blocks with
      | [] =>
        simp only [convert_blocks_to_markdown_frags] at h
        cases h
        exact ⟨List.suffix_refl v, fun hnd => hnd⟩
      | b :: rest =>
        simp only [convert_blocks_to_markdown_frags] at h
        split at h
        · cases h
        · cases h
        · case _ content v1 ds1 hr =>
          split at h
          · cases h
          · cases h
          · case _ frags v2 ds2 hc =>
            cases h
            have h1 := ihR store b v (content, v1, ds1) hr
            have h2 := ihC store rest v1 (frags, v2, ds2) hc
            exact ⟨h1.1.trans h2.1, fun hnd => h2.2 (h1.2 hnd)⟩
    · intro store b v r h
      cases b with
      | noType => simp only [render_block] at h; cases h; exact ⟨List.suffix_refl v, fun hnd => hnd⟩
      | paragraph texts =>
        simp only [render_block] at h; cases h; exact ⟨List.suffix_refl v, fun hnd => hnd⟩
      | heading_1 texts =>
        simp only [render_block] at h; cases h; exact ⟨List.suffix_refl v, fun hnd => hnd⟩
      | heading_2 texts =>
        simp only [render_block] at h; cases h; exact ⟨List.suffix_refl v, fun hnd => hnd⟩
      | heading_3 texts =>
        simp only [render_block] at h; cases h; exact ⟨List.suffix_refl v, fun hnd => hnd⟩
      | bulleted_list_item texts =>
        simp only [render_block] at h; cases h; exact ⟨List.suffix_refl v, fun hnd => hnd⟩
      | numbered_list_item texts =>
        simp only [render_block] at h; cases h; exact ⟨List.suffix_refl v, fun hnd => hnd⟩
      | to_do texts checked =>
        simp only [render_block] at h; cases h; exact ⟨List.suffix_refl v, fun hnd => hnd⟩
      | toggle texts fetch =>
        simp only [render_block] at h
        exact ihT store texts fetch v r h
      | code language texts =>
        simp only [render_block] at h; cases h; exact ⟨List.suffix_refl v, fun hnd => hnd⟩
      | quote texts =>
        simp only [render_block] at h; cases h; exact ⟨List.suffix_refl v, fun hnd => hnd⟩
      | divider =>
        simp only [render_block] at h; cases h; exact ⟨List.suffix_refl v, fun hnd => hnd⟩
      | child_page pid title =>
        simp only [render_block] at h
        match pid with
        | none =>
          simp only at h; cases h; exact ⟨List.suffix_refl v, fun hnd => hnd⟩
        | some cid =>
          simp only at h
          split at h
          · cases h; exact ⟨List.suffix_refl v, fun hnd => hnd⟩
          · split at h
            · cases h
            · cases h
            · case _ childMd v1 ds hf =>
              cases h
              exact ihF store cid v (childMd, v1, ds) hf
      | unsupported kind =>
        simp only [render_block] at h; cases h; exact ⟨List.suffix_refl v, fun hnd => hnd⟩
    · intro store texts tf v r h
      match tf with
      | none =>
        simp only [handle_toggle] at h; cases h; exact ⟨List.suffix_refl v, fun hnd => hnd⟩
      | some ToggleFetch.transportFailure =>
        simp only [handle_toggle] at h; cases h
      | some ToggleFetch.httpFailure =>
        simp only [handle_toggle] at h; cases h; exact ⟨List.suffix_refl v, fun hnd => hnd⟩
      | some (ToggleFetch.fetched children) =>
        simp only [handle_toggle] at h
        split at h
        · cases h
        · cases h
        · case _ frags v1 ds hc =>
          cases h
          exact ihC store children v (frags, v1, ds) hc

theorem adequacy : ∀ (fuel : Nat),
    (∀ store pid v, pot store v + 2 ≤ fuel →
      fetch_page_content_recursive fuel store pid v ≠ none)
  ∧ (∀ store blocks v, blocksCost blocks + pot store v + 1 ≤ fuel →
      convert_blocks_to_markdown_frags fuel store blocks v ≠ none)
  ∧ (∀ store b v, blockCost b + pot store v + 1 ≤ fuel →
      render_block fuel store b v ≠ none)
  ∧ (∀ store texts tf v, toggleFetchOptCost tf + pot store v + 1 ≤ fuel →
      handle_toggle fuel store texts tf v ≠ none) := by
  intro fuel
  induction fuel with
  | zero =>
    refine ⟨?_, ?_, ?_, ?_⟩
    · intro store pid v hb; omega
    · intro store blocks v hb; have := blocksCost_pos blocks; omega
    · intro store b v hb; have := blockCost_pos b; omega
    · intro store texts tf v hb; have := toggleFetchOptCost_pos tf; omega
  | succ n ih =>
    obtain ⟨ihF, ihC, ihR, ihT⟩ := ih
    refine ⟨?_, ?_, ?_, ?_⟩
    · intro store pid v hb
      simp only [fetch_page_content_recursive]
      split
      · simp
      · case isFalse hmem =>
        split
        · simp
        · simp
        · case _ blocks hlk =>
          have hkm := lookup_mem_keys hlk
          have hsp := pot_split store pid v hkm hmem
          rw [hlk] at hsp
          simp only [fetchResultCost] at hsp
          have hrec : convert_blocks_to_markdown_frags n store blocks (pid :: v) ≠ none := by
            apply ihC
            omega
          cases hc : convert_blocks_to_markdown_frags n store blocks (pid :: v) with
          | none => exact absurd hc hrec
          | some val =>
            cases val with
            | error e => simp [hc]
            | ok r => rcases r with ⟨frags, v2, ds⟩; simp [hc]
    · intro store blocks v hb
      match blocks with
      | [] => simp [convert_blocks_to_markdown_frags]
      | b :: rest =>
        simp only [convert_blocks_to_markdown_frags]
        have hcost : blocksCost (b :: rest) = 1 + blockCost b + blocksCost rest := by
          simp [blocksCost]
        have hposr := blocksCost_pos rest
        have hposb := blockCost_pos b
        have hr : render_block n store b v ≠ none := by
          apply ihR; omega
        cases hrb : render_block n store b v with
        | none => exact absurd hrb hr
        | some val =>
          cases val with
          | error e => simp
          | ok r =>
            rcases r with ⟨content, v1, ds1⟩
            have hsuf := (walk_invariant n).2.2.1 store b v (content, v1, ds1) hrb
            have hpot : pot store v1 ≤ pot store v :=
              pot_mono store (List.IsSuffix.subset hsuf.1)
            have hc : convert_blocks_to_markdown_frags n store rest v1 ≠ none := by
              apply ihC; omega
            cases hcc : convert_blocks_to_markdown_frags n store rest v1 with
            | none => exact absurd hcc hc
            | some val2 =>
              cases val2 with
              | error e => simp [hcc]
              | ok r2 => rcases r2 with ⟨frags, v2, ds2⟩; simp [hcc]
    · intro store b v hb
      cases b with
      | noType => simp [render_block]
      | paragraph texts => simp [render_block]
      | heading_1 texts => simp [render_block]
      | heading_2 texts => simp [render_block]
      | heading_3 texts => simp [render_block]
      | bulleted_list_item texts => simp [render_block]
      | numbered_list_item texts => simp [render_block]
      | to_do texts checked => simp [render_block]
      | toggle texts fetch =>
        simp only [render_block]
        apply ihT
        simp only [blockCost] at hb
        omega
      | code language texts => simp [render_block]
      | quote texts => simp [render_block]
      | divider => simp [render_block]
      | child_page pid title =>
        simp only [render_block]
        match pid with
        | none => simp
        | some cid =>
          simp only
          split
          · simp
          · simp only [blockCost] at hb
            have hf : fetch_page_content_recursive n store cid v ≠ none := by
              apply ihF; omega
            cases hfc : fetch_page_content_recursive n store cid v with
            | none => exact absurd hfc hf
            | some val =>
              cases val with
              | error e => simp [hfc]
              | ok r => rcases r with ⟨childMd, v1, ds⟩; simp [hfc]
      | unsupported kind => simp [render_block]
    · intro store texts tf v hb
      match tf with
      | none => simp [handle_toggle]
      | some ToggleFetch.transportFailure => simp [handle_toggle]
      | some ToggleFetch.httpFailure => simp [handle_toggle]
      | some (ToggleFetch.fetched children) =>
        simp only [handle_toggle]
        simp only [toggleFetchOptCost, toggleFetchCost] at hb
        have hc : convert_blocks_to_markdown_frags n store children v ≠ none := by
          apply ihC; omega
        cases hcc : convert_blocks_to_markdown_frags n store children v with
        | none => exact absurd hcc hc
        | some val =>
          cases val with
          | error e => simp [hcc]
          | ok r => rcases r with ⟨frags, v1, ds⟩; simp [hcc]

/-! ## Claim-support helper lemmas -/

theorem convert_lines_eq (lines : List String) (acc : List BlockDescriptor) :
    convert_markdown_lines lines acc = acc ++ lines.map classify_line := by
  induction lines generalizing acc with
  | nil => simp [convert_markdown_lines]
  | cons l rest ih => simp [convert_markdown_lines, ih]

theorem str_append_ne_empty (a b : String) (h : a.data ≠ []) : a ++ b ≠ "" := by
  intro he
  apply h
  have hd := congrArg String.data he
  rw [String.data_append] at hd
  exact (List.append_eq_nil.mp hd).1

theorem str_append3_ne_empty (a b c : String) (h : a.data ≠ []) : a ++ b ++ c ≠ "" := by
  intro he
  apply h
  have hd := congrArg String.data he
  simp only [String.data_append] at hd
  exact (List.append_eq_nil.mp ((List.append_eq_nil.mp hd).1)).1

/-! ## Claims -/

/-- C1 counterexample: a page whose top-level children fetch fails with an
HTTP status error (e.g. an authorization failure) does NOT abort the
render: `read_page_markdown` catches the error, emits a diagnostic and
returns the empty markup successfully instead of propagating a hard
failure. -/
theorem c1_counterexample :
    read_page_markdown 2 [("p", FetchResult.httpFailure)] "p" =
      some (Except.ok ("", [Diag.pageHttpFailure "p"])) := rfl

/-- C1 (amended): at the top-level page-children fetch site, an HTTP
status error (authorization included) is caught — the page renders as
empty text plus a diagnostic, the visited set already extended — while
only a transport failure raised by `requests.get` itself propagates to
the caller as a hard failure. -/
theorem c1_page_fetch_error_handling (store : Store) (pid : String) (visited : List String)
    (fuel : Nat) (hnm : pid ∉ visited) :
    (storeLookup store pid = FetchResult.httpFailure →
      fetch_page_content_recursive (fuel + 1) store pid visited =
        some (Except.ok ("", pid :: visited, [Diag.pageHttpFailure pid])))
  ∧ (storeLookup store pid = FetchResult.transportFailure →
      fetch_page_content_recursive (fuel + 1) store pid visited =
        some (Except.error Uncaught.transportFailure)) := by
  constructor
  · intro hlk
    simp [fetch_page_content_recursive, hnm, hlk]
  · intro hlk
    simp [fetch_page_content_recursive, hnm, hlk]

/-- C1 witness: the amended behaviour at concrete inputs. -/
theorem c1_page_fetch_error_handling_witness :
    fetch_page_content_recursive 1 [("p", FetchResult.httpFailure)] "p" [] =
      some (Except.ok ("", ["p"], [Diag.pageHttpFailure "p"]))
  ∧ fetch_page_content_recursive 1 [("q", FetchResult.transportFailure)] "q" [] =
      some (Except.error Uncaught.transportFailure) :=
  ⟨(c1_page_fetch_error_handling [("p", FetchResult.httpFailure)] "p" [] 0 (by simp)).1 rfl,
   (c1_page_fetch_error_handling [("q", FetchResult.transportFailure)] "q" [] 0 (by simp)).2 rfl⟩

/-- C2: the renderer terminates on every page graph — with fuel at least
`pot store visited + 2` the recursion never runs out — and never fetches
children for a visited page identifier: a visited `pid` returns empty
text immediately with a diagnostic, the visited list stays
duplicate-free and only grows, and a fresh `pid` is added to the visited
list before the recursion into its children. -/
theorem c2_render_terminates_and_guards (store : Store) (pid : String) (visited : List String) :
    (∀ fuel, pot store visited + 2 ≤ fuel →
      fetch_page_content_recursive fuel store pid visited ≠ none)
  ∧ (pid ∈ visited → ∀ fuel,
      fetch_page_content_recursive (fuel + 1) store pid visited =
        some (Except.ok ("", visited, [Diag.alreadyProcessed pid])))
  ∧ (∀ fuel r, visited.Nodup →
      fetch_page_content_recursive fuel store pid visited = some (Except.ok r) →
      r.2.1.Nodup ∧ visited <:+ r.2.1)
  ∧ (pid ∉ visited → ∀ fuel blocks, storeLookup store pid = FetchResult.ok blocks →
      fetch_page_content_recursive (fuel + 1) store pid visited =
        (match convert_blocks_to_markdown_frags fuel store blocks (pid :: visited) with
         | none => none
         | some (Except.error e) => some (Except.error e)
         | some (Except.ok (frags, v, ds)) => some (Except.ok (joinFragments frags, v, ds)))) := by
  refine ⟨?_, ?_, ?_, ?_⟩
  · intro fuel hb
    exact (adequacy fuel).1 store pid visited hb
  · intro hmem fuel
    simp [fetch_page_content_recursive, hmem]
  · intro fuel r hnd h
    have hw := (walk_invariant fuel).1 store pid visited r h
    exact ⟨hw.2 hnd, hw.1⟩
  · intro hnm fuel blocks hlk
    simp [fetch_page_content_recursive, hnm, hlk]

/-- C2 witness: the four guarantees at concrete inputs. -/
theorem c2_render_terminates_and_guards_witness :
    fetch_page_content_recursive (pot [("p", FetchResult.ok [])] [] + 2)
        [("p", FetchResult.ok [])] "p" [] ≠ none
  ∧ fetch_page_content_recursive 3 [("p", FetchResult.ok [])] "p" ["p"] =
      some (Except.ok ("", ["p"], [Diag.alreadyProcessed "p"]))
  ∧ ((["p"] : List String).Nodup ∧ ([] : List String) <:+ ["p"])
  ∧ fetch_page_content_recursive 1 [("p", FetchResult.ok [])] "p" [] =
      (match convert_blocks_to_markdown_frags 0 [("p", FetchResult.ok [])] [] ["p"] with
       | none => none
       | some (Except.error e) => some (Except.error e)
       | some (Except.ok (frags, v, ds)) => some (Except.ok (joinFragments frags, v, ds))) := by
  refine ⟨?_, ?_, ?_, ?_⟩
  · exact (c2_render_terminates_and_guards [("p", FetchResult.ok [])] "p" []).1 _ (Nat.le_refl _)
  · exact (c2_render_terminates_and_guards [("p", FetchResult.ok [])] "p" ["p"]).2.1 (by simp) 2
  · have hr := (c2_render_terminates_and_guards [("p", FetchResult.ok [])] "p" []).2.2.1 2
      ("", ["p"], []) (by simp) rfl
    exact ⟨hr.1, hr.2⟩
  · exact (c2_render_terminates_and_guards [("p", FetchResult.ok [])] "p" []).2.2.2 (by simp) 0 [] rfl

/-- C3: the parser is total and per-line — the descriptor list is exactly
the per-line classification in order (one descriptor per input line, no
failure possible) — and precedence puts the heading-3 rule before toggle
and checklist rules, so `"### [x] done"` is a heading-3. -/
theorem c3_parser_total_line_classification (markdown : String) :
    convert_markdown_to_blocks markdown = (splitLines markdown).map classify_line
  ∧ (convert_markdown_to_blocks markdown).length = (splitLines markdown).length
  ∧ classify_line "### [x] done" = BlockDescriptor.heading_3 "[x] done" := by
  refine ⟨?_, ?_, by decide⟩
  · rw [convert_markdown_to_blocks, convert_lines_eq]
    simp
  · rw [convert_markdown_to_blocks, convert_lines_eq]
    simp

/-- C4: a toggle whose children fetch raises an HTTP status error is
degraded locally: it yields the collapsible-detail fragment with the
composed summary and an empty nested body, and the remaining sibling
blocks still render — the traversal result is the degraded fragment
consed onto whatever the siblings produce. -/
theorem c4_toggle_http_degradation (fuel : Nat) (store : Store) (texts : List RichText)
    (rest : List Block) (v : List String) (frags : List String) (v2 : List String)
    (ds : List Diag)
    (hrest : convert_blocks_to_markdown_frags (fuel + 2) store rest v =
      some (Except.ok (frags, v2, ds))) :
    handle_toggle (fuel + 1) store texts (some ToggleFetch.httpFailure) v =
      some (Except.ok ("> <details><summary>" ++ compose_text texts ++ "</summary>\n\n</details>",
        v, [Diag.toggleHttpFailure]))
  ∧ convert_blocks_to_markdown_frags (fuel + 2 + 1) store
      (Block.toggle texts (some ToggleFetch.httpFailure) :: rest) v =
      some (Except.ok (("> <details><summary>" ++ compose_text texts ++
        "</summary>\n\n</details>") :: frags, v2, Diag.toggleHttpFailure :: ds)) := by
  have hne := str_append3_ne_empty "> <details><summary>" (compose_text texts)
    "</summary>\n\n</details>" (by decide)
  constructor
  · simp [handle_toggle]
  · simp only [convert_blocks_to_markdown_frags, render_block, handle_toggle, hrest]
    simp [hne]

/-- C4 witness: the degradation at concrete inputs. -/
theorem c4_toggle_http_degradation_witness :
    handle_toggle 1 [] [] (some ToggleFetch.httpFailure) [] =
      some (Except.ok ("> <details><summary>" ++ compose_text [] ++ "</summary>\n\n</details>",
        [], [Diag.toggleHttpFailure]))
  ∧ convert_blocks_to_markdown_frags 3 [] [Block.toggle [] (some ToggleFetch.httpFailure)] [] =
      some (Except.ok (["> <details><summary>" ++ compose_text [] ++ "</summary>\n\n</details>"],
        [], [Diag.toggleHttpFailure])) :=
  c4_toggle_http_degradation 0 [] [] [] [] [] [] [] rfl

/-- C5: inline annotations are applied in the fixed order bold, italic,
underline, strikethrough, code-span, each wrapping the previously
wrapped string with its marker pair; a bold+italic run therefore renders
with nested markers as three asterisks on each side. -/
theorem c5_annotation_composition_order (content : String) (a : Annotations) :
    apply_markdown_annotations content a =
      condWrap "`" "`" a.code (condWrap "~~" "~~" a.strikethrough
        (condWrap "<u>" "</u>" a.underline (condWrap "*" "*" a.italic
          (condWrap "**" "**" a.bold content))))
  ∧ apply_markdown_annotations content (Annotations.mk true true false false false) =
      "***" ++ content ++ "***" := by
  constructor
  · rfl
  · simp only [apply_markdown_annotations]
    simp only [if_true, if_false]
    apply String.ext
    simp [String.data_append]

/-- C6: both `"---"` and `"***"` full lines parse to the divider
descriptor, a divider block always renders to the literal `"---"`, and
re-parsing that render gives back the divider descriptor. -/
theorem c6_divider_round_trip :
    classify_line "---" = BlockDescriptor.divider
  ∧ classify_line "***" = BlockDescriptor.divider
  ∧ handle_divider = "---"
  ∧ classify_line handle_divider = BlockDescriptor.divider
  ∧ ∀ fuel store v, render_block (fuel + 1) store Block.divider v =
      some (Except.ok ("---", v, [])) := by
  refine ⟨by decide, by decide, rfl, by decide, ?_⟩
  intro fuel store v
  simp [render_block, handle_divider]

/-- C7: every numbered-list item renders with the literal ordinal
`"1. "` — there is no counter, so three consecutive numbered items
produce three fragments each starting with `"1. "`. -/
theorem c7_numbered_items_literal_one (texts : List RichText) :
    handle_numbered_list_item texts = "1. " ++ compose_text texts
  ∧ ∀ t1 t2 t3 (fuel : Nat) (store : Store) (v : List String),
      convert_blocks_to_markdown_frags (fuel + 3 + 1) store
        [Block.numbered_list_item t1, Block.numbered_list_item t2, Block.numbered_list_item t3]
        v =
        some (Except.ok (["1. " ++ compose_text t1, "1. " ++ compose_text t2,
          "1. " ++ compose_text t3], v, [])) := by
  constructor
  · rfl
  · intro t1 t2 t3 fuel store v
    have h1 := str_append_ne_empty "1. " (compose_text t1) (by decide)
    have h2 := str_append_ne_empty "1. " (compose_text t2) (by decide)
    have h3 := str_append_ne_empty "1. " (compose_text t3) (by decide)
    simp only [convert_blocks_to_markdown_frags, render_block, handle_numbered_list_item]
    simp [h1, h2, h3]

/-- C8: an unsupported block (kind `"embed"`) between two non-empty
paragraphs contributes no fragment but one diagnostic naming the kind;
the output is exactly the two paragraph fragments in fetch order, joined
with a blank-line separator. -/
theorem c8_unsupported_among_paragraphs (fuel : Nat) (store : Store) (p1 p2 : List RichText)
    (v : List String) (h1 : compose_text p1 ≠ "") (h2 : compose_text p2 ≠ "") :
    convert_blocks_to_markdown_frags (fuel + 3 + 1) store
      [Block.paragraph p1, Block.unsupported "embed", Block.paragraph p2] v =
      some (Except.ok ([compose_text p1, compose_text p2], v, [Diag.unhandledBlockType "embed"]))
  ∧ joinFragments [compose_text p1, compose_text p2] =
      compose_text p1 ++ "\n\n" ++ compose_text p2 := by
  constructor
  · simp only [convert_blocks_to_markdown_frags, render_block, handle_paragraph]
    simp [h1, h2]
  · simp [joinFragments]

/-- C8 witness: the unknown-kind scenario at concrete inputs. -/
theorem c8_unsupported_among_paragraphs_witness :
    convert_blocks_to_markdown_frags 4 []
      [Block.paragraph [RichText.text "a" (Annotations.mk false false false false false)],
       Block.unsupported "embed",
       Block.paragraph [RichText.text "b" (Annotations.mk false false false false false)]] [] =
      some (Except.ok (
        [compose_text [RichText.text "a" (Annotations.mk false false false false false)],
         compose_text [RichText.text "b" (Annotations.mk false false false false false)]],
        [], [Diag.unhandledBlockType "embed"])) :=
  (c8_unsupported_among_paragraphs 0 []
    [RichText.text "a" (Annotations.mk false false false false false)]
    [RichText.text "b" (Annotations.mk false false false false false)] []
    (by decide) (by decide)).1

/-- C9: a fetched block record whose `type` field is missing or falsy is
skipped silently — it contributes no fragment and no diagnostic, and the
conversion of the remaining blocks is exactly as if the record were not
there. -/
theorem c9_falsy_type_skipped_silently (fuel : Nat) (store : Store) (rest : List Block)
    (v : List String) :
    render_block (fuel + 1) store Block.noType v = some (Except.ok ("", v, []))
  ∧ convert_blocks_to_markdown_frags (fuel + 1 + 1) store (Block.noType :: rest) v =
      convert_blocks_to_markdown_frags (fuel + 1) store rest v := by
  constructor
  · simp [render_block]
  · simp only [convert_blocks_to_markdown_frags, render_block]
    cases hc : convert_blocks_to_markdown_frags (fuel + 1) store rest v with
    | none => simp [hc]
    | some val =>
      cases val with
      | error e => simp [hc]
      | ok r => rcases r with ⟨frags, v2, ds⟩; simp [hc]

/-- C10: a toggle block without a usable `id` performs no children fetch
at all — its result does not depend on the store — and yields the same
collapsible-detail fragment with composed summary and empty nested body
as the HTTP-failure degradation case (which differs only in its
diagnostic). -/
theorem c10_toggle_without_id (fuel : Nat) (store : Store) (texts : List RichText)
    (v : List String) :
    handle_toggle (fuel + 1) store texts none v =
      some (Except.ok ("> <details><summary>" ++ compose_text texts ++ "</summary>\n\n</details>",
        v, []))
  ∧ (∀ store2 : Store, handle_toggle (fuel + 1) store2 texts none v =
      handle_toggle (fuel + 1) store texts none v)
  ∧ handle_toggle (fuel + 1) store texts (some ToggleFetch.httpFailure) v =
      some (Except.ok ("> <details><summary>" ++ compose_text texts ++ "</summary>\n\n</details>",
        v, [Diag.toggleHttpFailure])) := by
  refine ⟨by simp [handle_toggle], fun store2 => by simp [handle_toggle], by simp [handle_toggle]⟩

end FlowWatcher
